import Mathlib

/-!
Verification of the geos_project agent core: sandboxed path validation
(`BaseTool.validate_path`), the tool capability set (read / write / list /
execute), and the orchestrator loop with its retry policy
(`run_agent` in `src/agent/agent.py`).

Python strings are modelled as `List Char` where character-level structure
matters (file contents, section labels) and paths as component lists
(`PyPath`): `os.path` operations on POSIX paths act on the `/`-separated
component sequence, which is what the embedding carries directly.
-/

namespace Geos

/-- A Python path string, split at `/`: `absolute` records a leading slash,
`comps` the components between separators (may contain `".."`, `"."`, `""`). -/
structure PyPath where
  absolute : Bool
  comps : List String
deriving DecidableEq, Repr

/-- `os.path.normpath` on an absolute POSIX path, at component level:
empty and `"."` components are dropped, `".."` removes the previous
component (at the root it is simply discarded, as `normpath("/..") = "/"`). -/
def normComps (l : List String) : List String :=
  l.foldl (fun acc c =>
    if c = "" ∨ c = "." then acc
    else if c = ".." then acc.dropLast
    else acc ++ [c]) []

/-- `os.path.abspath(p)` given the process working directory `cwd`
(an absolute, already-normalized component list). -/
def abspath (cwd : List String) (p : PyPath) : List String :=
  if p.absolute then normComps p.comps else normComps (cwd ++ p.comps)

/-- Errors raised by `BaseTool.validate_path`: the `allowed_root is None`
configuration `ValueError`, and the `Disallowed path` `ValueError`. -/
inductive VErr where
  | configError : VErr
  | disallowed : List String → VErr
deriving DecidableEq, Repr

/-- `os.path.abspath(os.path.join(root, path))` where `root` is an absolute,
normalized component list: `join` discards `root` when `path` is absolute. -/
def absJoin (root : List String) (path : PyPath) : List String :=
  if path.absolute then normComps path.comps else normComps (root ++ path.comps)

/-- `BaseTool.validate_path` (src/agent/tools/base_tool.py, lines 7-25):
raises when `allowed_root` is unset; otherwise takes the absolute form of
root and of `join(root, path)` and requires
`os.path.commonpath([root, abs_path]) == root`, which for two normalized
absolute paths holds exactly when `root`'s components are a prefix of
`abs_path`'s. On failure raises `ValueError("Disallowed path: ...")`. -/
def validate_path (allowedRoot : Option PyPath) (cwd : List String)
    (path : PyPath) : Except VErr (List String) :=
  match allowedRoot with
  | none => .error .configError
  | some r =>
    let root := abspath cwd r
    let absPath := absJoin root path
    if root.isPrefixOf absPath then .ok absPath else .error (.disallowed absPath)

/-- Modelled from the spec: the spec's canonicalization additionally resolves
symbolic links ("canonicalize (resolving `..`, and — for correctness —
symlinks)"). `links` maps a symlink's absolute component path to its target;
one resolution step substitutes the first link whose source is a prefix. -/
def resolveSymlinks (links : List (List String × List String))
    (p : List String) : List String :=
  match links.find? (fun l => l.1.isPrefixOf p) with
  | some l => l.2 ++ p.drop l.1.length
  | none => p

/-- A component list is in canonical form: no `".."`, `"."` or `""`. -/
def cleanComps (l : List String) : Prop :=
  ∀ c ∈ l, c ≠ ".." ∧ c ≠ "." ∧ c ≠ ""

/-! ## Python string primitives used by the tools -/

/-- Python whitespace (`str.strip()`, regex `\s`), ASCII range. -/
def isPySpace (c : Char) : Bool :=
  c = ' ' ∨ c = '\t' ∨ c = '\n' ∨ c = '\r' ∨ c = '\x0b' ∨ c = '\x0c'

/-- Python `str.strip()`. -/
def pyStrip (s : List Char) : List Char :=
  ((s.dropWhile isPySpace).reverse.dropWhile isPySpace).reverse

/-- Python `str.rstrip(".")`. -/
def rstripDots (s : List Char) : List Char :=
  (s.reverse.dropWhile (· = '.')).reverse

/-- Python `file.readlines()` / iteration over a text file: the content is
split into chunks each ending at a `'\n'` (kept), the last chunk possibly
unterminated; `""` yields no lines. -/
def readlines : List Char → List (List Char)
  | [] => []
  | c :: rest =>
    if c = '\n' then ['\n'] :: readlines rest
    else
      match readlines rest with
      | [] => [[c]]
      | l :: ls => (c :: l) :: ls

/-! ## Filesystem model

The tools act on a workspace filesystem: a finite map from canonical
absolute paths (component lists) to file contents, plus the set of
directories. Association-list lookup takes the first hit, so prepending a
pair overwrites. -/

structure FS where
  files : List (List String × List Char)
  dirs : List (List String)
deriving DecidableEq, Repr

/-- `open(path)` for reading: the file's content, if it exists. -/
def FS.read (fs : FS) (p : List String) : Option (List Char) :=
  fs.files.lookup p

/-- `Path(path).write_text(content)`: overwrite or create. -/
def FS.write (fs : FS) (p : List String) (content : List Char) : FS :=
  { fs with files := (p, content) :: fs.files }

/-- `os.path.isdir`. -/
def FS.isdir (fs : FS) (p : List String) : Bool := fs.dirs.contains p

/-- `os.listdir(p)`: names of immediate children (files and directories). -/
def FS.listdir (fs : FS) (p : List String) : List String :=
  (fs.files.map Prod.fst ++ fs.dirs).filterMap fun k =>
    if k.length = p.length + 1 ∧ p.isPrefixOf k then k.getLast? else none

/-- Python exceptions that the embedded tool bodies can raise. -/
inductive PyExc where
  | validation : VErr → PyExc
  | fileNotFound : List String → PyExc
  | procError : PyExc
deriving DecidableEq, Repr

/-! ## ReadFileTool (src/agent/tools/read_file_tool.py) -/

def MAX_CHARS : Nat := 20000
def PREVIEW_LINES : Nat := 80

/-- Python `x or d` for `x : int | None` (`None` and `0` are falsy). -/
def pyOrElse (x : Option Int) (d : Int) : Int :=
  match x with
  | none => d
  | some v => if v = 0 then d else v

/-- Python list slice `l[a : b]` with a non-negative start and an arbitrary
integer stop: a negative stop counts from the end. -/
def pySlice {α : Type} (l : List α) (a : Nat) (b : Int) : List α :=
  let stop : Nat := if b < 0 then (l.length + b).toNat else min l.length b.toNat
  (l.take stop).drop a

/-- The dictionaries `ReadFileTool.run` returns: the line-range form, the
full-content form, the truncated head/tail preview, and the
`{ok: False, error: ...}` form produced by the `except` clause. -/
inductive ReadResult where
  | range : (totalLines : Nat) → (s e : Int) → (content : List Char) → ReadResult
  | full : (totalLines : Nat) → (content : List Char) → ReadResult
  | truncated : (totalLines : Nat) → (head tail : List Char) → ReadResult
  | error : PyExc → ReadResult
deriving DecidableEq, Repr

/-- The `try` block of `ReadFileTool.run` (lines 35-76): raising operations
surface as `Except.error`. -/
def ReadFileTool.body (allowedRoot : Option PyPath) (cwd : List String)
    (fs : FS) (path : PyPath) (start_line end_line : Option Int) :
    Except PyExc ReadResult := do
  let safe_path ← (validate_path allowedRoot cwd path).mapError .validation
  let text ← match fs.read safe_path with
    | none => .error (.fileNotFound safe_path)
    | some t => .ok t
  let lines := readlines text
  let total_lines := lines.length
  if start_line.isSome ∨ end_line.isSome then
    let s : Int := max 1 (pyOrElse start_line 1)
    let e : Int := min (total_lines : Int) (pyOrElse end_line (total_lines : Int))
    let selected := pySlice lines (s - 1).toNat e
    return .range total_lines s e selected.flatten
  else
    let full_content := lines.flatten
    if full_content.length ≤ MAX_CHARS then
      return .full total_lines full_content
    else
      return .truncated total_lines
        (lines.take PREVIEW_LINES).flatten
        (lines.drop (lines.length - PREVIEW_LINES)).flatten

/-- `ReadFileTool.run`: the whole body sits in `try/except Exception`, so
every internal exception becomes an `{ok: False}` result and none escapes. -/
def ReadFileTool.run (allowedRoot : Option PyPath) (cwd : List String)
    (fs : FS) (path : PyPath) (start_line end_line : Option Int) : ReadResult :=
  match ReadFileTool.body allowedRoot cwd fs path start_line end_line with
  | .ok r => r
  | .error e => .error e

/-! ## WriteFileTool (src/agent/tools/write_file_tool.py) -/

/-- The dictionaries `WriteFileTool.run` returns. -/
inductive WriteResult where
  | success : List String → WriteResult
  | failure : PyExc → WriteResult
deriving DecidableEq, Repr

/-- `WriteFileTool.run` (lines 15-29). `validate_path` and `os.makedirs`
run OUTSIDE the `try` block, so their exceptions propagate to the caller
(`Except.error`); only the `write_text` call is guarded. `os.makedirs` with
`exist_ok=True` is a no-op in the flat-map filesystem model, and
`write_text` always succeeds in it, so the guarded `except` branch
(`WriteResult.failure`) is never produced by the model. -/
def WriteFileTool.run (allowedRoot : Option PyPath) (cwd : List String)
    (fs : FS) (path : PyPath) (new_content : List Char) :
    Except PyExc (WriteResult × FS) := do
  let safe_base_path ← (validate_path allowedRoot cwd path).mapError .validation
  return (.success safe_base_path, fs.write safe_base_path new_content)

/-! ## ListFileTool (src/agent/tools/list_file_tool.py) -/

/-- The dictionaries `ListFileTool.run` returns. -/
inductive ListResult where
  | ok : (path : List String) → (items : List String) → ListResult
  | notADirectory : List String → ListResult
  | error : PyExc → ListResult
deriving DecidableEq, Repr

/-- The `try` block of `ListFileTool.run` (lines 13-28). -/
def ListFileTool.body (allowedRoot : Option PyPath) (cwd : List String)
    (fs : FS) (path : PyPath) : Except PyExc ListResult := do
  let safe_path ← (validate_path allowedRoot cwd path).mapError .validation
  if fs.isdir safe_path then
    return .ok safe_path (fs.listdir safe_path)
  else
    return .notADirectory safe_path

/-- `ListFileTool.run`: whole body in `try/except Exception`. -/
def ListFileTool.run (allowedRoot : Option PyPath) (cwd : List String)
    (fs : FS) (path : PyPath) : ListResult :=
  match ListFileTool.body allowedRoot cwd fs path with
  | .ok r => r
  | .error e => .error e


/-! ## ExecutePHREEQCTool (src/agent/tools/executation_tool.py) -/

/-- `re.match(r"^-{3,}$", stripped)`: a dash-only line, three or more. -/
def isDashesLine (s : List Char) : Bool :=
  3 ≤ s.length ∧ s.all (· = '-')

/-- `[A-Za-z]`. -/
def isAsciiLetter (c : Char) : Bool :=
  ('A' ≤ c ∧ c ≤ 'Z') ∨ ('a' ≤ c ∧ c ≤ 'z')

/-- The closing `\s*-{3,}\s*$` of the embedded-label pattern. The greedy
quantifiers are forced: `\s` never matches `-` and vice versa, so the
whitespace run, the dash run and the trailing whitespace are determined. -/
def matchDashTail (s : List Char) : Bool :=
  let t := s.dropWhile isPySpace
  let d := (t.takeWhile (· = '-')).length
  3 ≤ d ∧ (t.drop d).all isPySpace

/-- The lazy `.+?` of the embedded-label pattern: extend the capture one
character at a time (shortest first, at least one), succeeding as soon as
the remainder matches `\s*-{3,}\s*$`. -/
def lazyCapture : List Char → Option (List Char)
  | [] => none
  | x :: rs => if matchDashTail rs then some [x] else (lazyCapture rs).map (x :: ·)

/-- `re.match(r"^-{3,}\s*([A-Za-z].+?)\s*-{3,}\s*$", stripped)`, returning
`m.group(1).strip()`. The leading `-{3,}` and `\s*` are forced to their
maximal runs (backtracking them leaves a `-` or whitespace where `[A-Za-z]`
must match), then the lazy capture takes the shortest extension whose
remainder matches the closing dash run. -/
def matchEmbeddedLabel (s : List Char) : Option (List Char) :=
  let d := (s.takeWhile (· = '-')).length
  if d < 3 then none
  else
    match (s.drop d).dropWhile isPySpace with
    | [] => none
    | c :: rest =>
      if isAsciiLetter c then (lazyCapture rest).map (fun g => pyStrip (c :: g))
      else none

/-- The scan of `_build_toc` (lines 44-63) over the file's lines: `lineno`
is 1-based, `prevDashes` models `prev_dashes_line` (`0` when unset); blank
lines are skipped without clearing it; an embedded label or a dash-only
separator is checked on the stripped line, and any other non-blank line
right after a separator becomes an implicit label with trailing periods
stripped. -/
def buildTocScan : List (List Char) → Nat → Nat → List (Nat × List Char)
  | [], _, _ => []
  | line :: rest, lineno, prevDashes =>
    let stripped := pyStrip line
    if stripped.isEmpty then buildTocScan rest (lineno + 1) prevDashes
    else
      match matchEmbeddedLabel stripped with
      | some label => (lineno, label) :: buildTocScan rest (lineno + 1) 0
      | none =>
        if isDashesLine stripped then buildTocScan rest (lineno + 1) lineno
        else if prevDashes ≠ 0 then
          (lineno, rstripDots stripped) :: buildTocScan rest (lineno + 1) 0
        else buildTocScan rest (lineno + 1) 0

/-- `ExecutePHREEQCTool._build_toc` (lines 38-66): scan `result.out` for
section delimiters; any exception (e.g. the file missing) yields `[]`. -/
def ExecutePHREEQCTool.build_toc (fs : FS) (filepath : List String) :
    List (Nat × List Char) :=
  match fs.read filepath with
  | none => []
  | some text => buildTocScan (readlines text) 1 0

/-- Outcome of the `subprocess.run` call: exit code, captured streams, and
the filesystem as the external program left it. -/
structure ProcOutcome where
  returncode : Int
  stdout : List Char
  stderr : List Char
  fsAfter : FS
deriving DecidableEq, Repr

/-- Python `s[-n:]`. -/
def lastChars (n : Nat) (s : List Char) : List Char := s.drop (s.length - n)

/-- `ExecutePHREEQCTool._collect_output_files` (lines 23-36): directory
entries present after the run but not before, sorted, files only, made
relative to `Path(self.allowed_root)` when possible. -/
def ExecutePHREEQCTool.collect_output_files (root : List String) (fsAfter : FS)
    (workdir : List String) (before : List String) : List (List String) :=
  let after := fsAfter.listdir workdir
  let new_files := (after.filter (fun n => ¬ before.contains n)).mergeSort
    (fun a b => decide (a ≤ b))
  new_files.filterMap fun nm =>
    let full := workdir ++ [nm]
    if (fsAfter.read full).isSome then
      some (if root.isPrefixOf full then full.drop root.length else full)
    else none

/-- The dictionaries `ExecutePHREEQCTool.run` returns. -/
inductive ExecResult where
  | missingBinary : ExecResult
  | missingDatabase : ExecResult
  | inputNotFound : List String → ExecResult
  | ran : (ok : Bool) → (returncode : Int) → (stdout stderr : List Char) →
      (output_files : List (List String)) →
      (toc : List (Nat × List Char)) → ExecResult
  | error : PyExc → ExecResult
deriving DecidableEq, Repr

/-- The `try` block of `ExecutePHREEQCTool.run` (lines 69-98). `binExists`
and `dbExists` model `os.path.isfile` on the configured `PHREEQC_BIN` and
`DEFAULT_DB`; `proc` models `subprocess.run` (which may itself raise). -/
def ExecutePHREEQCTool.body (binExists dbExists : Bool)
    (allowedRoot : Option PyPath) (cwd : List String) (fs : FS)
    (proc : Except PyExc ProcOutcome) (input_path : PyPath) :
    Except PyExc ExecResult := do
  if ¬ binExists then return .missingBinary
  else if ¬ dbExists then return .missingDatabase
  else
    let in_path ← (validate_path allowedRoot cwd input_path).mapError .validation
    if (fs.read in_path).isNone then return .inputNotFound in_path
    else
      let workdir := in_path.dropLast
      let out_file := workdir ++ ["result.out"]
      let files_before := fs.listdir workdir
      let p ← proc
      let root := (allowedRoot.map PyPath.comps).getD []
      let output_files :=
        ExecutePHREEQCTool.collect_output_files root p.fsAfter workdir files_before
      let toc := if (p.fsAfter.read out_file).isSome
        then ExecutePHREEQCTool.build_toc p.fsAfter out_file else []
      return .ran (p.returncode == 0) p.returncode (lastChars 4000 p.stdout)
        (lastChars 4000 p.stderr) output_files toc

/-- `ExecutePHREEQCTool.run`: whole body in `try/except Exception`. -/
def ExecutePHREEQCTool.run (binExists dbExists : Bool)
    (allowedRoot : Option PyPath) (cwd : List String) (fs : FS)
    (proc : Except PyExc ProcOutcome) (input_path : PyPath) : ExecResult :=
  match ExecutePHREEQCTool.body binExists dbExists allowedRoot cwd fs proc input_path with
  | .ok r => r
  | .error e => .error e

/-! ## Orchestrator loop and retry policy (src/agent/agent.py)

The model service is an oracle `Nat → Except (List Char) Reply` indexed by
the global count of API calls made so far; `Except.error` is a raised
exception whose message is the `List Char`. Argument parsing
(`json.loads` + dict check) and the tool registry are abstract parameters:
`parse` returns `none` on a decode failure, `tools` returns `none` for an
unregistered name, and a registered tool's `run` may raise (caught by the
orchestrator at lines 199-202). -/

/-- A proposed tool call (`_tool_call_payload`). -/
structure ToolCall where
  id : String
  name : String
  arguments : String
deriving DecidableEq, Repr

/-- One model reply: assistant text and proposed tool calls
(`assistant_msg.tool_calls or []`). -/
structure Reply where
  content : String
  tool_calls : List ToolCall
deriving DecidableEq, Repr

/-- The result attached to a tool message: the tool's own dict, or one of
the synthetic error dicts of lines 187-197. -/
inductive DispatchResult (R : Type) where
  | ok : R → DispatchResult R
  | invalidArgs : (raw : String) → DispatchResult R
  | unknownTool : (name : String) → DispatchResult R
  | caught : (err : List Char) → DispatchResult R
deriving DecidableEq, Repr

/-- Conversation messages. -/
inductive Msg (R : Type) where
  | system : String → Msg R
  | user : String → Msg R
  | assistant : (content : String) → (tool_calls : List ToolCall) → Msg R
  | tool : (tool_call_id : String) → (content : DispatchResult R) → Msg R
deriving DecidableEq, Repr

/-- Audit-log events (`_log_event` actions). -/
inductive Event (A R : Type) where
  | run_start : (maxSteps : Nat) → Event A R
  | userEvent : (content : String) → Event A R
  | assistantEvent : (step : Nat) → (content : String) →
      (tool_calls : List ToolCall) → Event A R
  | toolEvent : (step : Nat) → (tool : String) → (args : Option A) →
      (result : DispatchResult R) → Event A R
  | run_end : (status : String) → (step : Nat) → Event A R
deriving DecidableEq, Repr

/-- Substring test, `marker in err_str`. -/
def containsSub (needle hay : List Char) : Bool :=
  hay.tails.any (needle.isPrefixOf ·)

/-- The transient-error markers of line 136. -/
def transientMarkers : List (List Char) :=
  ["429", "500", "502", "503", "timeout", "connection"].map String.toList

/-- `is_transient` (line 136): the error message carries some marker. -/
def is_transient (err : List Char) : Bool :=
  transientMarkers.any (fun m => containsSub m err)

/-- Result of the retry loop: the reply or the re-raised error, the next
global call index, and the `time.sleep(2 ** attempt)` delays performed. -/
structure RetryOutcome where
  result : Except (List Char) Reply
  nextCallIdx : Nat
  sleeps : List Nat
deriving Repr

/-- The retry loop of lines 124-141: `for attempt in range(1, 4)`; a
success breaks out; a non-transient failure or the third failure re-raises;
otherwise sleep `2 ** attempt` seconds and retry. `fuel` is `3 - attempt + 1`,
so the `fuel = 0` case is unreachable from `retryCall`. -/
def retryGo (oracle : Nat → Except (List Char) Reply) :
    (fuel attempt callIdx : Nat) → (sleeps : List Nat) → RetryOutcome
  | 0, _, callIdx, sleeps => ⟨.error [], callIdx, sleeps⟩
  | fuel + 1, attempt, callIdx, sleeps =>
    match oracle callIdx with
    | .ok reply => ⟨.ok reply, callIdx + 1, sleeps⟩
    | .error e =>
      if is_transient e = false ∨ attempt = 3 then ⟨.error e, callIdx + 1, sleeps⟩
      else retryGo oracle fuel (attempt + 1) (callIdx + 1) (sleeps ++ [2 ^ attempt])

/-- One guarded model-service call, attempts 1..3. -/
def retryCall (oracle : Nat → Except (List Char) Reply) (callIdx : Nat) :
    RetryOutcome :=
  retryGo oracle 3 1 callIdx []

/-- What a round decides: return the final answer, re-raise an upstream
error, or continue to the next round. -/
inductive RoundOutcome where
  | answered : (text : String) → RoundOutcome
  | apiError : (err : List Char) → RoundOutcome
  | next : RoundOutcome
deriving DecidableEq, Repr

/-- The per-round effects: messages and audit events appended, tool
invocations actually performed, sleeps, and the next global call index. -/
structure RoundResult (A R : Type) where
  msgsDelta : List (Msg R)
  logDelta : List (Event A R)
  executedDelta : List (String × A)
  sleepsDelta : List Nat
  nextCallIdx : Nat
  outcome : RoundOutcome
deriving DecidableEq, Repr

/-- One round of `run_agent` (lines 123-222): query with retry; append the
assistant message retaining only the first proposed tool call; stop when no
tool call is present; otherwise decode the arguments (empty text falls back to the
empty JSON object, as in `or` on line 181),
look the tool up, invoke it with the orchestrator-side `except` of lines
199-202, and append the correlated tool message and audit event. -/
def agentRound {A R : Type} (oracle : Nat → Except (List Char) Reply)
    (parse : String → Option A) (tools : String → Option (A → Except (List Char) R))
    (step callIdx : Nat) : RoundResult A R :=
  let r := retryCall oracle callIdx
  match r.result with
  | .error e => ⟨[], [.run_end "api_error" step], [], r.sleeps, r.nextCallIdx, .apiError e⟩
  | .ok reply =>
    let first_tc := reply.tool_calls.head?
    let retained := match first_tc with | some tc => [tc] | none => []
    let aMsg := Msg.assistant reply.content retained
    let aEv := Event.assistantEvent (A := A) (R := R) step reply.content retained
    match first_tc with
    | none =>
      ⟨[aMsg], [aEv, .run_end "answered" step], [], r.sleeps, r.nextCallIdx,
        .answered reply.content⟩
    | some tc =>
      let raw_args := if tc.arguments = "" then "\x7b\x7d" else tc.arguments
      let dispatched : DispatchResult R × Option A × List (String × A) :=
        match parse raw_args with
        | none => (.invalidArgs raw_args, none, [])
        | some args =>
          match tools tc.name with
          | none => (.unknownTool tc.name, some args, [])
          | some run =>
            match run args with
            | .ok res => (.ok res, some args, [(tc.name, args)])
            | .error e => (.caught e, some args, [(tc.name, args)])
      ⟨[aMsg, .tool tc.id dispatched.1],
        [aEv, .toolEvent step tc.name dispatched.2.1 dispatched.1],
        dispatched.2.2, r.sleeps, r.nextCallIdx, .next⟩

/-- The fixed budget-exhaustion sentinel (line 225). -/
def maxStepsSentinel : String :=
  "Reached max_steps without a final answer. Try rephrasing or increasing max_steps."

/-- `RuntimeError` of line 98. -/
def rootUnsetError : List Char :=
  ("RuntimeError: BaseTool.allowed_root must be set before calling run_agent.").toList

/-- `RuntimeError` of lines 101-104. -/
def rootOutsideWorkspaceError : List Char :=
  ("RuntimeError: allowed_root is not inside work_space.").toList

/-- Accumulated run state. -/
structure AgentState (A R : Type) where
  messages : List (Msg R)
  log : List (Event A R)
  executed : List (String × A)
  sleeps : List Nat
  callIdx : Nat

/-- The whole run: the returned text or raised error, the final
conversation, the audit log, the tool invocations performed, the sleeps,
and the number of model-service calls made. -/
structure AgentTrace (A R : Type) where
  result : Except (List Char) String
  messages : List (Msg R)
  log : List (Event A R)
  executed : List (String × A)
  sleeps : List Nat
  apiCalls : Nat
deriving Repr

/-- The `for step in range(1, max_steps + 1)` loop of `run_agent`;
`stepsLeft` counts the remaining iterations. Falling off the loop logs
`run_end{max_steps_reached}` and returns the sentinel (lines 224-225). -/
def runAgentLoop {A R : Type} (oracle : Nat → Except (List Char) Reply)
    (parse : String → Option A)
    (tools : String → Option (A → Except (List Char) R)) (maxSteps : Nat) :
    (stepsLeft step : Nat) → AgentState A R → AgentTrace A R
  | 0, _, st =>
    ⟨.ok maxStepsSentinel, st.messages,
      st.log ++ [.run_end "max_steps_reached" maxSteps], st.executed,
      st.sleeps, st.callIdx⟩
  | stepsLeft + 1, step, st =>
    let rd := agentRound oracle parse tools step st.callIdx
    let st' : AgentState A R :=
      ⟨st.messages ++ rd.msgsDelta, st.log ++ rd.logDelta,
        st.executed ++ rd.executedDelta, st.sleeps ++ rd.sleepsDelta,
        rd.nextCallIdx⟩
    match rd.outcome with
    | .answered t => ⟨.ok t, st'.messages, st'.log, st'.executed, st'.sleeps, st'.callIdx⟩
    | .apiError e => ⟨.error e, st'.messages, st'.log, st'.executed, st'.sleeps, st'.callIdx⟩
    | .next => runAgentLoop oracle parse tools maxSteps stepsLeft (step + 1) st'

/-- The last user message, if any (lines 118-121). -/
def lastUserContent {R : Type} (messages : List (Msg R)) : Option String :=
  messages.reverse.findSome? fun m =>
    match m with
    | .user c => some c
    | _ => none

/-- Does the conversation already start with a system message
(line 109)? -/
def startsWithSystem {R : Type} (messages : List (Msg R)) : Bool :=
  match messages.head? with
  | some (.system _) => true
  | _ => false

/-- `run_agent` (lines 87-225): refuse to start when `allowed_root` is
unset or resolves outside the workspace root `wsRoot` (both raised
`RuntimeError`s, nothing logged); otherwise prepend the system prompt when
absent, log `run_start` and the latest user message, and run the loop. -/
def run_agent {A R : Type} (oracle : Nat → Except (List Char) Reply)
    (parse : String → Option A)
    (tools : String → Option (A → Except (List Char) R))
    (systemPrompt : String) (wsRoot : List String)
    (allowedRoot : Option PyPath) (cwd : List String)
    (messages : List (Msg R)) (maxSteps : Nat) : AgentTrace A R :=
  match allowedRoot with
  | none => ⟨.error rootUnsetError, messages, [], [], [], 0⟩
  | some r =>
    let resolved_root := abspath cwd r
    if ¬ wsRoot.isPrefixOf resolved_root then
      ⟨.error rootOutsideWorkspaceError, messages, [], [], [], 0⟩
    else
      let messages :=
        if startsWithSystem messages then messages
        else .system systemPrompt :: messages
      let log : List (Event A R) :=
        [.run_start maxSteps] ++
          (match lastUserContent messages with
           | some u => [.userEvent u]
           | none => [])
      runAgentLoop oracle parse tools maxSteps maxSteps 1 ⟨messages, log, [], [], 0⟩

/-! ## Concrete objects used by witnesses and counterexamples -/

/-- A workspace root `/ws`. -/
def wsRootPath : PyPath := ⟨true, ["ws"]⟩

/-- A one-line file content exceeding `MAX_CHARS` by one character. -/
def bigContent : List Char := List.replicate 20001 'a'

def bigPath : PyPath := ⟨false, ["big.txt"]⟩

def bigFS : FS := ⟨[(["ws", "big.txt"], bigContent)], [["ws"]]⟩

/-- A three-line file `a\nb\nc`. -/
def threeLines : List Char := ['a', '\n', 'b', '\n', 'c']

def threePath : PyPath := ⟨false, ["t.txt"]⟩

def threeFS : FS := ⟨[(["ws", "t.txt"], threeLines)], [["ws"]]⟩

/-- `"returns exactly C"`: the content a read result hands back, when it is
a content-carrying success dict. -/
def ReadResult.contentOf : ReadResult → Option (List Char)
  | .full _ c => some c
  | .range _ _ _ c => some c
  | _ => none

/-- A reply proposing two tool calls. -/
def twoCallsReply : Reply :=
  ⟨"two calls", [⟨"1", "read_file", "\x7b\x7d"⟩, ⟨"2", "write_file", "\x7b\x7d"⟩]⟩

def twoCallsOracle : Nat → Except (List Char) Reply := fun _ => .ok twoCallsReply

/-- A reply proposing one tool call. -/
def oneCallReply : Reply := ⟨"go", [⟨"1", "read_file", "\x7b\x7d"⟩]⟩

def oneCallOracle : Nat → Except (List Char) Reply := fun _ => .ok oneCallReply

def unitParse : String → Option Unit := fun _ => some ()

def unitTools : String → Option (Unit → Except (List Char) Unit) := fun _ => none

/-- A result file: 38 blank lines, a dash-only separator at line 39, and
`Saturation indices` at line 40. -/
def tocText1 : List Char :=
  List.replicate 38 '\n' ++ ("---------------\n").toList
    ++ ("Saturation indices").toList

def tocFS1 : FS := ⟨[(["ws", "result.out"], tocText1)], [["ws"]]⟩

/-- A result file consisting of the single line
`----Saturation indices----`. -/
def tocText2 : List Char := ("----Saturation indices----").toList

def tocFS2 : FS := ⟨[(["ws", "result.out"], tocText2)], [["ws"]]⟩

/-! ## Theorems -/

/-! ### Helper lemmas shared across claims -/

theorem cleanComps_append {l₁ l₂ : List String}
    (h₁ : cleanComps l₁) (h₂ : cleanComps l₂) : cleanComps (l₁ ++ l₂) := by
  intro c hc
  rcases List.mem_append.mp hc with h | h
  · exact h₁ c h
  · exact h₂ c h

theorem cleanComps_dropLast {l : List String} (h : cleanComps l) :
    cleanComps l.dropLast := fun c hc => h c (List.dropLast_subset l hc)

theorem cleanComps_foldl (l : List String) (acc : List String)
    (hacc : cleanComps acc) :
    cleanComps (l.foldl (fun acc c =>
      if c = "" ∨ c = "." then acc
      else if c = ".." then acc.dropLast
      else acc ++ [c]) acc) := by
  induction l generalizing acc with
  | nil => exact hacc
  | cons c rest ih =>
    simp only [List.foldl_cons]
    by_cases h1 : c = "" ∨ c = "."
    · simp only [if_pos h1]; exact ih acc hacc
    · simp only [if_neg h1]
      by_cases h2 : c = ".."
      · simp only [if_pos h2]; exact ih _ (cleanComps_dropLast hacc)
      · simp only [if_neg h2]
        refine ih _ (cleanComps_append hacc ?_)
        intro d hd
        rcases List.mem_singleton.mp hd with rfl
        push_neg at h1
        exact ⟨h2, h1.2, h1.1⟩

theorem cleanComps_normComps (l : List String) : cleanComps (normComps l) :=
  cleanComps_foldl l [] (by intro c hc; cases hc)

theorem cleanComps_absJoin (root : List String) (p : PyPath) :
    cleanComps (absJoin root p) := by
  unfold absJoin
  split <;> exact cleanComps_normComps _

/-- C1 counterexample: a symlink `/home/ws/lnk -> /etc` escapes the root
`/home/ws`. The path `lnk/secret` canonicalizes (resolving symlinks, as the
claim requires) to `/etc/secret`, outside the root, yet `validate_path`
accepts it: `os.path.abspath` resolves `..` purely lexically and never
follows symlinks, so the claimed violation report does not happen. -/
theorem validate_path_symlink_escape_counterexample :
    validate_path (some ⟨true, ["home", "ws"]⟩) [] ⟨false, ["lnk", "secret"]⟩
      = .ok ["home", "ws", "lnk", "secret"] ∧
    resolveSymlinks [(["home", "ws", "lnk"], ["etc"])]
      ["home", "ws", "lnk", "secret"] = ["etc", "secret"] ∧
    ¬ (["home", "ws"] <+: ["etc", "secret"]) :=
  ⟨rfl, rfl, by decide⟩

/-- C1 (amended): `validate_path` canonicalizes lexically — it joins the
root and the path, resolves `..`, `.` and empty components (but not
symlinks) producing a clean absolute path, succeeds with exactly that
canonical path when the root's components are an ancestor-chain prefix of
it, and reports a containment violation otherwise. -/
theorem validate_path_lexical_containment (r : PyPath) (cwd : List String)
    (p : PyPath) :
    (abspath cwd r <+: absJoin (abspath cwd r) p →
      validate_path (some r) cwd p = .ok (absJoin (abspath cwd r) p)) ∧
    (¬ abspath cwd r <+: absJoin (abspath cwd r) p →
      validate_path (some r) cwd p
        = .error (.disallowed (absJoin (abspath cwd r) p))) ∧
    cleanComps (absJoin (abspath cwd r) p) := by
  refine ⟨fun h => ?_, fun h => ?_, cleanComps_absJoin _ _⟩
  · have hb : (abspath cwd r).isPrefixOf (absJoin (abspath cwd r) p) = true :=
      List.isPrefixOf_iff_prefix.mpr h
    simp [validate_path, hb]
  · have hb : (abspath cwd r).isPrefixOf (absJoin (abspath cwd r) p) = false := by
      rw [Bool.eq_false_iff]
      intro hc
      exact h (List.isPrefixOf_iff_prefix.mp hc)
    simp [validate_path, hb]

/-- Witness for C1: a contained relative path is accepted with its canonical
absolute form, and a `..`-traversal escaping the root is rejected. -/
theorem validate_path_lexical_containment_witness :
    validate_path (some ⟨true, ["home", "ws"]⟩) [] ⟨false, ["a", ".", "b"]⟩
      = .ok ["home", "ws", "a", "b"] ∧
    validate_path (some ⟨true, ["home", "ws"]⟩) []
      ⟨false, ["..", "secrets.txt"]⟩
      = .error (.disallowed ["home", "secrets.txt"]) :=
  ⟨(validate_path_lexical_containment ⟨true, ["home", "ws"]⟩ []
      ⟨false, ["a", ".", "b"]⟩).1 (by decide),
   (validate_path_lexical_containment ⟨true, ["home", "ws"]⟩ []
      ⟨false, ["..", "secrets.txt"]⟩).2.1 (by decide)⟩


/-- `"".join(f.readlines())` reassembles the exact file content. -/
theorem flatten_readlines (s : List Char) : (readlines s).flatten = s := by
  induction s with
  | nil => rfl
  | cons c rest ih =>
    unfold readlines
    by_cases h : c = '\n'
    · subst h
      simp [List.flatten, ih]
    · simp only [if_neg h]
      cases hr : readlines rest with
      | nil =>
        have : rest = [] := by
          have := ih
          rw [hr] at this
          simpa using this.symm
        simp [this]
      | cons l ls =>
        have : l ++ ls.flatten = rest := by
          have := ih
          rwa [hr] at this
        simp [List.flatten_cons, this]

/-- A file that contains no newline is read as a single line. -/
theorem readlines_no_newline (s : List Char) (hne : s ≠ [])
    (h : '\n' ∉ s) : readlines s = [s] := by
  induction s with
  | nil => exact absurd rfl hne
  | cons c rest ih =>
    unfold readlines
    have hc : ¬ c = '\n' := fun hc => h (hc ▸ List.mem_cons_self c rest)
    simp only [if_neg hc]
    cases hrest : rest with
    | nil => simp [hrest, readlines]
    | cons d ds =>
      have : readlines rest = [rest] := by
        refine hrest ▸ ih ?_ (fun hm => h (List.mem_cons_of_mem c ?_)) <;>
          simp_all
      rw [hrest] at this
      simp [this]

theorem FS.read_write (fs : FS) (p : List String) (c : List Char) :
    (fs.write p c).read p = some c := by
  simp [FS.read, FS.write, List.lookup]

/-- Reading a contained, existing file without a line range returns the full
content when it is at or under the character cap. -/
theorem ReadFileTool.run_full (r : PyPath) (cwd : List String) (fs : FS)
    (p : PyPath) (text : List Char) (safe : List String)
    (hv : validate_path (some r) cwd p = .ok safe)
    (hr : fs.read safe = some text) (h : text.length ≤ MAX_CHARS) :
    ReadFileTool.run (some r) cwd fs p none none
      = .full (readlines text).length text := by
  simp [ReadFileTool.run, ReadFileTool.body, hv, hr, Except.mapError,
    flatten_readlines, h, Except.instMonad, Except.bind, Except.pure]

/-- Reading a contained, existing file without a line range returns the
head/tail preview when the content exceeds the character cap. -/
theorem ReadFileTool.run_truncated (r : PyPath) (cwd : List String) (fs : FS)
    (p : PyPath) (text : List Char) (safe : List String)
    (hv : validate_path (some r) cwd p = .ok safe)
    (hr : fs.read safe = some text) (h : MAX_CHARS < text.length) :
    ReadFileTool.run (some r) cwd fs p none none
      = .truncated (readlines text).length
          ((readlines text).take PREVIEW_LINES).flatten
          ((readlines text).drop ((readlines text).length - PREVIEW_LINES)).flatten := by
  simp [ReadFileTool.run, ReadFileTool.body, hv, hr, Except.mapError,
    flatten_readlines, Nat.not_le.mpr h, Except.instMonad, Except.bind, Except.pure]

theorem bigContent_length : bigContent.length = 20001 := by
  rw [bigContent, List.length_replicate]

theorem bigContent_over_cap : MAX_CHARS < bigContent.length := by
  rw [bigContent_length, MAX_CHARS]
  norm_num

theorem readlines_bigContent : readlines bigContent = [bigContent] :=
  readlines_no_newline _
    (List.length_pos.mp (by rw [bigContent_length]; norm_num))
    (fun hm => by
      rw [bigContent] at hm
      have := List.eq_of_mem_replicate hm
      simp at this)

/-! ### C6 — read truncation -/

/-- C6 counterexample: `bigFS` holds a ONE-line file of 20001 characters.
It exceeds the cap, so the read is truncated — but the head is that single
line, not "exactly the configured preview-line count of lines" (80). -/
theorem read_file_truncation_counterexample :
    ReadFileTool.run (some wsRootPath) [] bigFS bigPath none none
      = .truncated 1 bigContent bigContent ∧
    (readlines bigContent).length = 1 ∧ PREVIEW_LINES ≠ 1 := by
  refine ⟨?_, by rw [readlines_bigContent]; rfl, by decide⟩
  have h := ReadFileTool.run_truncated wsRootPath [] bigFS bigPath bigContent
    ["ws", "big.txt"] rfl rfl bigContent_over_cap
  rw [h, readlines_bigContent]
  simp [List.take_of_length_le, PREVIEW_LINES]

/-- C6 (amended): without a line range, a file whose full text exceeds
`MAX_CHARS` comes back with `truncated=true`, `total_line_count = L`, a head
made of the first `min PREVIEW_LINES L` lines and a tail of the last
`min PREVIEW_LINES L` lines — exactly `PREVIEW_LINES` lines each only when
`L ≥ PREVIEW_LINES`; a file at or under the cap comes back in full with no
truncated flag. -/
theorem read_file_cap_behaviour (r : PyPath) (cwd : List String) (fs : FS)
    (p : PyPath) (text : List Char) (safe : List String)
    (hv : validate_path (some r) cwd p = .ok safe)
    (hr : fs.read safe = some text) :
    (MAX_CHARS < text.length →
      ReadFileTool.run (some r) cwd fs p none none
        = .truncated (readlines text).length
            ((readlines text).take PREVIEW_LINES).flatten
            ((readlines text).drop ((readlines text).length - PREVIEW_LINES)).flatten) ∧
    (text.length ≤ MAX_CHARS →
      ReadFileTool.run (some r) cwd fs p none none
        = .full (readlines text).length text) ∧
    ((readlines text).take PREVIEW_LINES).length
      = min PREVIEW_LINES (readlines text).length :=
  ⟨fun h => ReadFileTool.run_truncated r cwd fs p text safe hv hr h,
   fun h => ReadFileTool.run_full r cwd fs p text safe hv hr h,
   List.length_take _ _⟩

/-- Witness for C6 at the over-cap one-line file. -/
theorem read_file_cap_behaviour_witness :
    MAX_CHARS < bigContent.length ∧
    ReadFileTool.run (some wsRootPath) [] bigFS bigPath none none
      = .truncated (readlines bigContent).length
          ((readlines bigContent).take PREVIEW_LINES).flatten
          ((readlines bigContent).drop
            ((readlines bigContent).length - PREVIEW_LINES)).flatten :=
  ⟨bigContent_over_cap,
   (read_file_cap_behaviour wsRootPath [] bigFS bigPath bigContent
      ["ws", "big.txt"] rfl rfl).1 bigContent_over_cap⟩

/-! ### C7 — write-then-read round trip -/

/-- C7 counterexample: write 20001 characters, read them back — the read
returns the truncated preview dict, which carries no `content` at all, so
the round trip does not return `C`. -/
theorem write_read_roundtrip_counterexample :
    WriteFileTool.run (some wsRootPath) [] ⟨[], [["ws"]]⟩ bigPath bigContent
      = .ok (.success ["ws", "big.txt"], bigFS) ∧
    (ReadFileTool.run (some wsRootPath) [] bigFS bigPath none none).contentOf
      = none := by
  refine ⟨rfl, ?_⟩
  rw [ReadFileTool.run_truncated wsRootPath [] bigFS bigPath bigContent
    ["ws", "big.txt"] rfl rfl bigContent_over_cap]
  rfl

/-- C7 (amended): for a sandbox-contained path and any content of at most
`MAX_CHARS` characters, writing and then reading without a line range
returns exactly the written content. -/
theorem write_then_read_roundtrip (r : PyPath) (cwd : List String) (fs : FS)
    (p : PyPath) (C : List Char) (safe : List String)
    (hv : validate_path (some r) cwd p = .ok safe)
    (hc : C.length ≤ MAX_CHARS) :
    WriteFileTool.run (some r) cwd fs p C = .ok (.success safe, fs.write safe C) ∧
    ReadFileTool.run (some r) cwd (fs.write safe C) p none none
      = .full (readlines C).length C := by
  constructor
  · simp [WriteFileTool.run, hv, Except.mapError, Except.instMonad,
      Except.bind, Except.pure]
  · exact ReadFileTool.run_full r cwd _ p C safe hv (FS.read_write fs safe C) hc

/-- Witness for C7 on a small three-line file. -/
theorem write_then_read_roundtrip_witness :
    WriteFileTool.run (some wsRootPath) [] ⟨[], [["ws"]]⟩ threePath threeLines
      = .ok (.success ["ws", "t.txt"], FS.write ⟨[], [["ws"]]⟩ ["ws", "t.txt"] threeLines) ∧
    ReadFileTool.run (some wsRootPath) []
      (FS.write ⟨[], [["ws"]]⟩ ["ws", "t.txt"] threeLines) threePath none none
      = .full (readlines threeLines).length threeLines :=
  write_then_read_roundtrip wsRootPath [] ⟨[], [["ws"]]⟩ threePath threeLines
    ["ws", "t.txt"] rfl (by decide)

/-! ### C10 — line-range clamping -/

/-- Helper: `l.take (min l.length n) = l.take n`. -/
theorem take_min_length {α : Type} (l : List α) (n : Nat) :
    l.take (min l.length n) = l.take n := by
  rcases le_total l.length n with h | h
  · rw [min_eq_left h, List.take_length, List.take_of_length_le h]
  · rw [min_eq_right h]

/-- C10 counterexample: `end_line = 0` is an integer, and the claim's
clamping makes the range `[1, 0]`, hence empty content — but Python's
`end_line or total_lines` treats `0` as falsy, so the code returns the
whole three-line file. -/
theorem read_range_clamp_counterexample :
    ReadFileTool.run (some wsRootPath) [] threeFS threePath none (some 0)
      = .range 3 1 3 threeLines ∧ threeLines ≠ [] := by
  exact ⟨rfl, by decide⟩

/-- C10 (amended): for an existing contained file and `end_line` either
absent or at least 1, the range is clamped — `s = max 1 (start_line or 1)`
(so a start below 1 becomes 1, and `start_line = 0` is falsy and also
becomes 1), `e = min L (end_line or L)` — the result is `ok=true` with
exactly the lines `s..e`, empty when the clamped range is empty, and the
error branch is never reached. An `end_line ≤ 0` instead hits Python's
falsy-`or` (`0`) or negative-slice semantics and is excluded. -/
theorem read_range_clamped (r : PyPath) (cwd : List String) (fs : FS)
    (p : PyPath) (text : List Char) (safe : List String)
    (start_line end_line : Option Int) (s e : Int)
    (hv : validate_path (some r) cwd p = .ok safe)
    (hr : fs.read safe = some text)
    (hsome : start_line.isSome = true ∨ end_line.isSome = true)
    (hend : ∀ v ∈ end_line, 1 ≤ v)
    (hs : s = max 1 (pyOrElse start_line 1))
    (he : e = min ((readlines text).length : Int)
        (pyOrElse end_line ((readlines text).length : Int))) :
    ReadFileTool.run (some r) cwd fs p start_line end_line
      = .range (readlines text).length s e
          (((readlines text).take e.toNat).drop (s - 1).toNat).flatten ∧
    1 ≤ s ∧ e ≤ ((readlines text).length : Int) ∧
    (e < s → ((readlines text).take e.toNat).drop (s - 1).toNat = []) := by
  have hs1 : 1 ≤ s := hs ▸ le_max_left _ _
  have heL : e ≤ ((readlines text).length : Int) := he ▸ min_le_left _ _
  have he0 : 0 ≤ e := by
    rcases hE : end_line with _ | v
    · rw [he, hE]
      simp [pyOrElse]
    · have hv1 : 1 ≤ v := hend v (by rw [hE]; rfl)
      rw [he, hE]
      simp only [pyOrElse]
      rw [if_neg (by omega)]
      exact le_min (Int.natCast_nonneg _) (by omega)
  refine ⟨?_, hs1, heL, ?_⟩
  · have hb : pySlice (readlines text) (s - 1).toNat e
        = ((readlines text).take e.toNat).drop (s - 1).toNat := by
      simp only [pySlice]
      split
      · exact absurd (by assumption) (not_lt.mpr he0)
      · rw [take_min_length]
    have hsome' : (start_line.isSome ∨ end_line.isSome) = true := by
      rcases hsome with h | h <;> simp [h]
    simp only [ReadFileTool.run, ReadFileTool.body, hv, hr, Except.mapError,
      Except.instMonad, Except.bind, Except.pure, hsome', if_true, hs, he]
    rw [← hs, ← he, hb]
  · intro hlt
    apply List.drop_eq_nil_of_le
    calc ((readlines text).take e.toNat).length
        ≤ e.toNat := by rw [List.length_take]; exact min_le_left _ _
      _ ≤ (s - 1).toNat := by omega

/-- Witness for C10: an inverted range (`start_line = 5 > end_line = 2`)
on the three-line file yields `ok=true` with empty content. -/
theorem read_range_clamped_witness :
    ReadFileTool.run (some wsRootPath) [] threeFS threePath (some 5) (some 2)
      = .range 3 5 2
          (((readlines threeLines).take (2 : Int).toNat).drop
            ((5 : Int) - 1).toNat).flatten ∧
    (1 : Int) ≤ 5 ∧ (2 : Int) ≤ ((readlines threeLines).length : Int) ∧
    ((2 : Int) < 5 →
      ((readlines threeLines).take (2 : Int).toNat).drop ((5 : Int) - 1).toNat
        = []) := by
  have h := read_range_clamped wsRootPath [] threeFS threePath threeLines
    ["ws", "t.txt"] (some 5) (some 2) 5 2 rfl rfl (Or.inl rfl)
    (fun v hv => by simp only [Option.mem_def, Option.some.injEq] at hv; omega)
    (by decide) (by decide)
  exact h

/-! ### C2 — tool-boundary exception policy -/

/-- C2 counterexample: `WriteFileTool.run` calls `validate_path` outside
its `try` block, so a `..`-traversal makes the tool raise the
`ValueError` to its caller instead of returning `{ok: False, ...}`. -/
theorem write_tool_exception_escape_counterexample :
    WriteFileTool.run (some wsRootPath) [] ⟨[], [["ws"]]⟩
      ⟨false, ["..", "x"]⟩ ['y']
      = .error (.validation (.disallowed ["x"])) := rfl

/-- C2 (amended): read_file, list_file and execute_phreeqc wrap their whole
bodies in `try/except Exception`, so an exception raised inside any of them
comes back as the `{ok: False}` error dict; write_file guards only the
`write_text` call, and propagates precisely the failures of its unguarded
`validate_path` prologue (which the orchestrator, not the tool, then
catches). -/
theorem tool_boundary_exception_policy (ar : Option PyPath)
    (cwd : List String) (fs : FS) (p : PyPath) (sl el : Option Int)
    (c : List Char) (be de : Bool) (proc : Except PyExc ProcOutcome) :
    (∀ ex, ReadFileTool.body ar cwd fs p sl el = .error ex →
      ReadFileTool.run ar cwd fs p sl el = .error ex) ∧
    (∀ ex, ListFileTool.body ar cwd fs p = .error ex →
      ListFileTool.run ar cwd fs p = .error ex) ∧
    (∀ ex, ExecutePHREEQCTool.body be de ar cwd fs proc p = .error ex →
      ExecutePHREEQCTool.run be de ar cwd fs proc p = .error ex) ∧
    (∀ ex, WriteFileTool.run ar cwd fs p c = .error ex ↔
      ∃ v, validate_path ar cwd p = .error v ∧ ex = .validation v) := by
  refine ⟨fun ex h => by simp [ReadFileTool.run, h],
    fun ex h => by simp [ListFileTool.run, h],
    fun ex h => by simp [ExecutePHREEQCTool.run, h],
    fun ex => ?_⟩
  cases hv : validate_path ar cwd p with
  | ok safe =>
    simp [WriteFileTool.run, hv, Except.mapError, Except.instMonad,
      Except.bind, Except.pure]
  | error v =>
    simp only [WriteFileTool.run, hv, Except.mapError, Except.instMonad,
      Except.bind, Except.pure]
    constructor
    · intro h
      exact ⟨v, rfl, by cases h; rfl⟩
    · rintro ⟨w, hw, rfl⟩
      cases hw
      rfl

/-- Witness for C2: the read tool converts the missing-file exception into
an error dict rather than raising it. -/
theorem tool_boundary_exception_policy_witness :
    ReadFileTool.run (some wsRootPath) [] ⟨[], [["ws"]]⟩ threePath none none
      = .error (.fileNotFound ["ws", "t.txt"]) :=
  (tool_boundary_exception_policy (some wsRootPath) [] ⟨[], [["ws"]]⟩
    threePath none none [] true true (.ok ⟨0, [], [], ⟨[], []⟩⟩)).1
    (.fileNotFound ["ws", "t.txt"]) rfl

/-! ### C9 — unset sandbox root -/

/-- C9 counterexample: with the root unset, the read tool's own
`except Exception` catches the configuration `ValueError` and returns the
per-call `{ok: False}` dict — the call is not fatal to anything and the
loop goes on. -/
theorem config_error_not_fatal_counterexample :
    ReadFileTool.body none [] threeFS threePath none none
      = .error (.validation .configError) ∧
    ReadFileTool.run none [] threeFS threePath none none
      = ReadResult.error (.validation .configError) := ⟨rfl, rfl⟩

/-! ### Loop helpers -/

/-- A model call that succeeds at the first attempt: no sleeps, one call. -/
theorem retryCall_first_success (oracle : Nat → Except (List Char) Reply)
    (ci : Nat) (reply : Reply) (h : oracle ci = .ok reply) :
    retryCall oracle ci = ⟨.ok reply, ci + 1, []⟩ := by
  simp [retryCall, retryGo, h]

/-- When the reply proposes `tc :: rest`, the round appends exactly one
assistant message carrying `[tc]`, one tool message correlated to `tc.id`,
logs the same, dispatches at most `tc`, and continues. -/
theorem agentRound_toolcall_spec {A R : Type}
    (oracle : Nat → Except (List Char) Reply) (parse : String → Option A)
    (tools : String → Option (A → Except (List Char) R)) (step ci : Nat)
    (reply : Reply) (tc : ToolCall) (rest : List ToolCall)
    (h : (retryCall oracle ci).result = .ok reply)
    (htc : reply.tool_calls = tc :: rest) :
    ∃ (res : DispatchResult R) (argsLog : Option A) (exe : List (String × A)),
      agentRound oracle parse tools step ci
        = ⟨[.assistant reply.content [tc], .tool tc.id res],
           [.assistantEvent step reply.content [tc],
            .toolEvent step tc.name argsLog res],
           exe, (retryCall oracle ci).sleeps, (retryCall oracle ci).nextCallIdx,
           .next⟩ ∧
      (exe = [] ∨ ∃ a, exe = [(tc.name, a)]) := by
  rcases hR : retryCall oracle ci with ⟨res0, n, sl⟩
  rw [hR] at h
  simp only at h
  subst h
  rcases hp : parse (if tc.arguments = "" then "\x7b\x7d" else tc.arguments) with _ | args
  · exact ⟨.invalidArgs (if tc.arguments = "" then "\x7b\x7d" else tc.arguments),
      none, [], by simp [agentRound, hR, htc, hp], Or.inl rfl⟩
  · rcases ht : tools tc.name with _ | run
    · exact ⟨.unknownTool tc.name, some args, [],
        by simp [agentRound, hR, htc, hp, ht], Or.inl rfl⟩
    · rcases hrun : run args with e | res2
      · exact ⟨.caught e, some args, [(tc.name, args)],
          by simp [agentRound, hR, htc, hp, ht, hrun], Or.inr ⟨args, rfl⟩⟩
      · exact ⟨.ok res2, some args, [(tc.name, args)],
          by simp [agentRound, hR, htc, hp, ht, hrun], Or.inr ⟨args, rfl⟩⟩

/-! ### C4 — retry policy -/

/-- C4: two transient failures followed by a success complete the round's
model call after exactly the two backoff sleeps of `base ^ attempt` seconds
(`2 ^ 1` then `2 ^ 2`); a single non-transient failure is never retried —
the call stops after one attempt with no sleep, the round writes the
`run_end{api_error}` audit event, and the loop re-raises the error to the
caller immediately. -/
theorem retry_policy {A R : Type} (oracle : Nat → Except (List Char) Reply)
    (parse : String → Option A)
    (tools : String → Option (A → Except (List Char) R))
    (step ci maxSteps stepsLeft : Nat) (st : AgentState A R)
    (e1 e2 f : List Char) (rep : Reply) :
    (oracle ci = .error e1 → is_transient e1 = true →
     oracle (ci + 1) = .error e2 → is_transient e2 = true →
     oracle (ci + 2) = .ok rep →
     retryCall oracle ci = ⟨.ok rep, ci + 3, [2 ^ 1, 2 ^ 2]⟩) ∧
    (oracle ci = .error f → is_transient f = false →
     retryCall oracle ci = ⟨.error f, ci + 1, []⟩ ∧
     agentRound oracle parse tools step ci
       = ⟨[], [.run_end "api_error" step], [], [], ci + 1, .apiError f⟩ ∧
     (st.callIdx = ci →
       (runAgentLoop oracle parse tools maxSteps (stepsLeft + 1) step st).result
         = .error f ∧
       (runAgentLoop oracle parse tools maxSteps (stepsLeft + 1) step st).log
         = st.log ++ [.run_end "api_error" step])) := by
  constructor
  · intro h1 t1 h2 t2 h3
    simp [retryCall, retryGo, h1, h2, h3, t1, t2]
  · intro hf tf
    have hrc : retryCall oracle ci = ⟨.error f, ci + 1, []⟩ := by
      simp [retryCall, retryGo, hf, tf]
    have hround : agentRound (A := A) (R := R) oracle parse tools step ci
        = ⟨[], [.run_end "api_error" step], [], [], ci + 1, .apiError f⟩ := by
      simp [agentRound, hrc]
    refine ⟨hrc, hround, fun hst => ?_⟩
    rw [← hst] at hround
    constructor <;> simp [runAgentLoop, hround]

/-- Witness for C4: a rate-limited then overloaded then successful service
completes with sleeps `[2, 4]`; an invalid-API-key failure stops at once. -/
theorem retry_policy_witness :
    retryCall
      (fun n => if n = 0 then .error ("429 rate limit").toList
        else if n = 1 then .error ("503 overloaded").toList
        else .ok ⟨"done", []⟩) 0
      = ⟨.ok ⟨"done", []⟩, 3, [2 ^ 1, 2 ^ 2]⟩ ∧
    retryCall (fun _ => .error ("401 invalid api key").toList) 0
      = ⟨.error ("401 invalid api key").toList, 1, []⟩ := by
  constructor
  · exact (retry_policy (A := Unit) (R := Unit) _ (fun _ => none)
      (fun _ => none) 1 0 1 0 ⟨[], [], [], [], 0⟩ _ _ [] ⟨"done", []⟩).1
      rfl (by decide) rfl (by decide) rfl
  · exact ((retry_policy (A := Unit) (R := Unit) _ (fun _ => none)
      (fun _ => none) 1 0 1 0 ⟨[], [], [], [], 0⟩ [] []
      (("401 invalid api key").toList) ⟨"", []⟩).2 rfl (by decide)).1

/-! ### C3 — only the first proposed tool call is honored -/

/-- C3: in a round where the model proposes `N ≥ 2` tool calls, the
appended assistant message and the assistant audit event carry exactly the
first proposed call, only that call reaches dispatch (at most one
invocation, under its name), and the other `N − 1` calls appear in no
appended message, no audit event and no invocation. -/
theorem first_tool_call_only {A R : Type}
    (oracle : Nat → Except (List Char) Reply) (parse : String → Option A)
    (tools : String → Option (A → Except (List Char) R)) (step ci : Nat)
    (reply : Reply) (tc : ToolCall) (rest : List ToolCall)
    (h : (retryCall oracle ci).result = .ok reply)
    (htc : reply.tool_calls = tc :: rest) (hN : rest ≠ []) :
    ∃ (res : DispatchResult R) (argsLog : Option A) (exe : List (String × A)),
      agentRound oracle parse tools step ci
        = ⟨[.assistant reply.content [tc], .tool tc.id res],
           [.assistantEvent step reply.content [tc],
            .toolEvent step tc.name argsLog res],
           exe, (retryCall oracle ci).sleeps, (retryCall oracle ci).nextCallIdx,
           .next⟩ ∧
      (exe = [] ∨ ∃ a, exe = [(tc.name, a)]) :=
  agentRound_toolcall_spec oracle parse tools step ci reply tc rest h htc

/-- Witness for C3: a reply proposing `read_file` then `write_file` keeps
only the first. -/
theorem first_tool_call_only_witness :
    ∃ (res : DispatchResult Unit) (argsLog : Option Unit)
      (exe : List (String × Unit)),
      agentRound twoCallsOracle unitParse unitTools 1 0
        = ⟨[.assistant "two calls" [⟨"1", "read_file", "\x7b\x7d"⟩],
            .tool "1" res],
           [.assistantEvent 1 "two calls" [⟨"1", "read_file", "\x7b\x7d"⟩],
            .toolEvent 1 "read_file" argsLog res],
           exe, (retryCall twoCallsOracle 0).sleeps,
           (retryCall twoCallsOracle 0).nextCallIdx, .next⟩ ∧
      (exe = [] ∨ ∃ a, exe = [("read_file", a)]) :=
  first_tool_call_only twoCallsOracle unitParse unitTools 1 0 twoCallsReply
    ⟨"1", "read_file", "\x7b\x7d"⟩ [⟨"2", "write_file", "\x7b\x7d"⟩] rfl rfl (by simp)

/-! ### C5 — step budget -/

/-- C5: with budget 3 and a model that requests a tool call in every
reply, the run makes exactly 3 model calls and performs 3 rounds, the final
conversation is exactly system, user, then three assistant/tool pairs —
8 messages — the audit log records the three rounds and closes with
`run_end{max_steps_reached}`, and the loop returns the fixed
budget-exhaustion sentinel as an ordinary (non-raised) result. -/
theorem step_budget_three_rounds {A R : Type}
    (oracle : Nat → Except (List Char) Reply) (parse : String → Option A)
    (tools : String → Option (A → Except (List Char) R))
    (sysP u : String) (wsRoot : List String) (r : PyPath) (cwd : List String)
    (hws : wsRoot.isPrefixOf (abspath cwd r) = true)
    (h : ∀ n, ∃ ct tc tcs, oracle n = .ok ⟨ct, tc :: tcs⟩) :
    ∃ (c1 c2 c3 : String) (t1 t2 t3 : ToolCall)
      (r1 r2 r3 : DispatchResult R) (a1 a2 a3 : Option A)
      (e1 e2 e3 : List (String × A)),
      run_agent oracle parse tools sysP wsRoot (some r) cwd [.user u] 3
        = ⟨.ok maxStepsSentinel,
           [.system sysP, .user u,
            .assistant c1 [t1], .tool t1.id r1,
            .assistant c2 [t2], .tool t2.id r2,
            .assistant c3 [t3], .tool t3.id r3],
           [.run_start 3, .userEvent u,
            .assistantEvent 1 c1 [t1], .toolEvent 1 t1.name a1 r1,
            .assistantEvent 2 c2 [t2], .toolEvent 2 t2.name a2 r2,
            .assistantEvent 3 c3 [t3], .toolEvent 3 t3.name a3 r3,
            .run_end "max_steps_reached" 3],
           e1 ++ e2 ++ e3, [], 3⟩ := by
  obtain ⟨c1, t1, ts1, h1⟩ := h 0
  obtain ⟨c2, t2, ts2, h2⟩ := h 1
  obtain ⟨c3, t3, ts3, h3⟩ := h 2
  have hrc1 := retryCall_first_success oracle 0 _ h1
  have hrc2 := retryCall_first_success oracle 1 _ h2
  have hrc3 := retryCall_first_success oracle 2 _ h3
  obtain ⟨r1, a1, e1, hq1, _⟩ :=
    agentRound_toolcall_spec oracle parse tools 1 0 _ t1 ts1 (by rw [hrc1]) rfl
  obtain ⟨r2, a2, e2, hq2, _⟩ :=
    agentRound_toolcall_spec oracle parse tools 2 1 _ t2 ts2 (by rw [hrc2]) rfl
  obtain ⟨r3, a3, e3, hq3, _⟩ :=
    agentRound_toolcall_spec oracle parse tools 3 2 _ t3 ts3 (by rw [hrc3]) rfl
  rw [hrc1] at hq1
  rw [hrc2] at hq2
  rw [hrc3] at hq3
  refine ⟨c1, c2, c3, t1, t2, t3, r1, r2, r3, a1, a2, a3, e1, e2, e3, ?_⟩
  simp only [run_agent, hws, Bool.not_true, startsWithSystem, lastUserContent]
  simp only [runAgentLoop, hq1, hq2, hq3]
  simp [List.append_assoc]

/-- Witness for C5: the single-call model oracle exhausts a budget of 3. -/
theorem step_budget_three_rounds_witness :
    ∃ (c1 c2 c3 : String) (t1 t2 t3 : ToolCall)
      (r1 r2 r3 : DispatchResult Unit) (a1 a2 a3 : Option Unit)
      (e1 e2 e3 : List (String × Unit)),
      run_agent oneCallOracle unitParse unitTools "SP" [] (some wsRootPath)
          [] [.user "hello"] 3
        = ⟨.ok maxStepsSentinel,
           [.system "SP", .user "hello",
            .assistant c1 [t1], .tool t1.id r1,
            .assistant c2 [t2], .tool t2.id r2,
            .assistant c3 [t3], .tool t3.id r3],
           [.run_start 3, .userEvent "hello",
            .assistantEvent 1 c1 [t1], .toolEvent 1 t1.name a1 r1,
            .assistantEvent 2 c2 [t2], .toolEvent 2 t2.name a2 r2,
            .assistantEvent 3 c3 [t3], .toolEvent 3 t3.name a3 r3,
            .run_end "max_steps_reached" 3],
           e1 ++ e2 ++ e3, [], 3⟩ :=
  step_budget_three_rounds oneCallOracle unitParse unitTools "SP" "hello"
    [] wsRootPath [] rfl
    (fun n => ⟨"go", ⟨"1", "read_file", "\x7b\x7d"⟩, [], rfl⟩)

/-! ### C9 (amended theorem) — unset root is fatal only at run start -/

/-- C9 (amended): with the root unset, `run_agent` itself raises the
`RuntimeError` before any round and before anything is logged; a tool call
made with the root unset is not fatal — read/list/execute convert the
configuration `ValueError` into their per-call `{ok: False}` dict, and
write raises it to its caller. -/
theorem root_unset_handling {A R : Type}
    (oracle : Nat → Except (List Char) Reply) (parse : String → Option A)
    (tools : String → Option (A → Except (List Char) R))
    (sysP : String) (wsRoot : List String) (cwd : List String)
    (messages : List (Msg R)) (maxSteps : Nat) (fs : FS) (p : PyPath)
    (sl el : Option Int) (c : List Char) (proc : Except PyExc ProcOutcome) :
    run_agent oracle parse tools sysP wsRoot none cwd messages maxSteps
      = ⟨.error rootUnsetError, messages, [], [], [], 0⟩ ∧
    ReadFileTool.run none cwd fs p sl el
      = ReadResult.error (.validation .configError) ∧
    ListFileTool.run none cwd fs p
      = ListResult.error (.validation .configError) ∧
    ExecutePHREEQCTool.run true true none cwd fs proc p
      = ExecResult.error (.validation .configError) ∧
    WriteFileTool.run none cwd fs p c
      = .error (.validation .configError) := by
  exact ⟨rfl, rfl, rfl, rfl, rfl⟩

/-! ### C8 — table-of-contents extraction -/

/-- A dash-only line never matches the embedded-label pattern: there is no
letter to start the capture. -/
theorem matchEmbeddedLabel_dashes (s : List Char)
    (h : isDashesLine s = true) : matchEmbeddedLabel s = none := by
  simp only [isDashesLine, Bool.and_eq_true, decide_eq_true_eq] at h
  have hall : s.takeWhile (fun c => c = '-') = s :=
    List.takeWhile_eq_self_iff.mpr (by
      intro a ha
      have := h.2
      simp only [List.all_eq_true] at this
      exact this a ha)
  simp only [matchEmbeddedLabel, hall]
  rw [if_neg (by omega), List.drop_length]
  rfl

/-- The empty string never matches the embedded-label pattern. -/
theorem matchEmbeddedLabel_nil : matchEmbeddedLabel [] = none := rfl

/-- A line whose entry appears in the scan of the tail (whatever the
separator state) also appears after scanning one more leading line. -/
theorem buildTocScan_mem_cons (l0 : List Char) (rest : List (List Char))
    (ln pd : Nat) (x : Nat × List Char)
    (h : ∀ pd', x ∈ buildTocScan rest (ln + 1) pd') :
    x ∈ buildTocScan (l0 :: rest) ln pd := by
  simp only [buildTocScan]
  repeat' split
  all_goals first
    | exact h _
    | exact List.mem_cons_of_mem _ (h 0)

/-- Implicit section labels: a dash-only separator line followed by a
non-blank, non-separator, non-embedded line puts that line (trailing
periods stripped, at its own 1-based line number) into the scan. -/
theorem buildTocScan_implicit_mem (dash lab : List Char)
    (post : List (List Char))
    (hd : isDashesLine (pyStrip dash) = true)
    (hne : pyStrip lab ≠ [])
    (hm : matchEmbeddedLabel (pyStrip lab) = none)
    (hnd : isDashesLine (pyStrip lab) = false) :
    ∀ (pre : List (List Char)) (ln pd : Nat), 0 < ln →
      (ln + pre.length + 1, rstripDots (pyStrip lab))
        ∈ buildTocScan (pre ++ dash :: lab :: post) ln pd := by
  intro pre
  induction pre with
  | nil =>
    intro ln pd hln
    have hdne : ¬ (pyStrip dash).isEmpty = true := by
      rw [List.isEmpty_iff]
      intro h0
      rw [h0] at hd
      simp [isDashesLine] at hd
    have hlne : ¬ (pyStrip lab).isEmpty = true := by
      rw [List.isEmpty_iff]; exact hne
    have hln' : ln ≠ 0 := by omega
    simp [buildTocScan, hdne, hd, matchEmbeddedLabel_dashes _ hd, hlne, hm,
      hnd, hln']
  | cons l0 rest ih =>
    intro ln pd hln
    rw [List.cons_append,
      show ln + (l0 :: rest).length + 1 = (ln + 1) + rest.length + 1 by
        simp [List.length_cons]
        omega]
    exact buildTocScan_mem_cons l0 _ ln pd _
      (fun pd' => ih (ln + 1) pd' (by omega))

/-- Embedded section labels: a line matching the dashes-label-dashes
pattern puts its captured label, at its own line number, into the scan. -/
theorem buildTocScan_embedded_mem (hline : List Char) (lab : List Char)
    (post : List (List Char))
    (hm : matchEmbeddedLabel (pyStrip hline) = some lab) :
    ∀ (pre : List (List Char)) (ln pd : Nat),
      (ln + pre.length, lab) ∈ buildTocScan (pre ++ hline :: post) ln pd := by
  intro pre
  induction pre with
  | nil =>
    intro ln pd
    have hlne : ¬ (pyStrip hline).isEmpty = true := by
      rw [List.isEmpty_iff]
      intro h0
      rw [h0, matchEmbeddedLabel_nil] at hm
      cases hm
    simp [buildTocScan, hlne, hm]
  | cons l0 rest ih =>
    intro ln pd
    rw [List.cons_append,
      show ln + (l0 :: rest).length = (ln + 1) + rest.length by
        simp [List.length_cons]
        omega]
    exact buildTocScan_mem_cons l0 _ ln pd _ (fun pd' => ih (ln + 1) pd')

/-- Every entry the scan emits sits at or after the starting line number. -/
theorem buildTocScan_le : ∀ (lines : List (List Char)) (ln pd : Nat)
    (e : Nat × List Char), e ∈ buildTocScan lines ln pd → ln ≤ e.1 := by
  intro lines
  induction lines with
  | nil =>
    intro ln pd e he
    simp [buildTocScan] at he
  | cons l0 rest ih =>
    intro ln pd e he
    simp only [buildTocScan] at he
    revert he
    repeat' split
    all_goals intro he
    all_goals
      first
      | exact le_trans (Nat.le_succ ln) (ih (ln + 1) _ e he)
      | (rcases List.mem_cons.mp he with h | h
         · rw [h]
         · exact le_trans (Nat.le_succ ln) (ih (ln + 1) _ e h))

/-- Scan entries carry strictly increasing line numbers: file order. -/
theorem buildTocScan_file_order : ∀ (lines : List (List Char)) (ln pd : Nat),
    List.Chain' (fun a b => a.1 < b.1) (buildTocScan lines ln pd) := by
  intro lines
  induction lines with
  | nil =>
    intro ln pd
    simp [buildTocScan]
  | cons l0 rest ih =>
    intro ln pd
    simp only [buildTocScan]
    repeat' split
    all_goals
      first
      | exact ih (ln + 1) _
      | (rw [List.chain'_cons']
         refine ⟨fun b hb => ?_, ih (ln + 1) 0⟩
         have := buildTocScan_le rest (ln + 1) 0 b
           (List.mem_of_mem_head? hb)
         omega)

/-- C8: the TOC built from `result.out` contains, for a dash-only
separator line immediately followed by a non-empty plain line, the entry
`{line: that line's 1-based number, section: the stripped line with
trailing periods removed}` (so `Saturation indices` at line 40 yields
`{40, "Saturation indices"}`); for a `----label----` line, the entry
`{its own line, captured label}`; and entries appear in file order
(strictly increasing line numbers). -/
theorem build_toc_sections (fs : FS) (out : List String) (text : List Char)
    (pre : List (List Char)) (dash lab : List Char) (post : List (List Char))
    (pre2 : List (List Char)) (hline : List Char) (lab2 : List Char)
    (post2 : List (List Char)) (hread : fs.read out = some text) :
    (readlines text = pre ++ dash :: lab :: post →
     isDashesLine (pyStrip dash) = true → pyStrip lab ≠ [] →
     matchEmbeddedLabel (pyStrip lab) = none →
     isDashesLine (pyStrip lab) = false →
     (pre.length + 2, rstripDots (pyStrip lab))
       ∈ ExecutePHREEQCTool.build_toc fs out) ∧
    (readlines text = pre2 ++ hline :: post2 →
     matchEmbeddedLabel (pyStrip hline) = some lab2 →
     (pre2.length + 1, lab2) ∈ ExecutePHREEQCTool.build_toc fs out) ∧
    List.Chain' (fun a b => a.1 < b.1)
      (ExecutePHREEQCTool.build_toc fs out) := by
  refine ⟨fun hsplit hd hne hm hnd => ?_, fun hsplit hm => ?_, ?_⟩
  · have := buildTocScan_implicit_mem dash lab post hd hne hm hnd pre 1 0
      (by omega)
    simp only [ExecutePHREEQCTool.build_toc, hread]
    rw [hsplit, show pre.length + 2 = 1 + pre.length + 1 by omega]
    exact this
  · have := buildTocScan_embedded_mem hline lab2 post2 hm pre2 1 0
    simp only [ExecutePHREEQCTool.build_toc, hread]
    rw [hsplit, show pre2.length + 1 = 1 + pre2.length by omega]
    exact this
  · simp only [ExecutePHREEQCTool.build_toc, hread]
    exact buildTocScan_file_order _ 1 0

/-- Witness for C8: the two concrete result files of the claim. -/
theorem build_toc_sections_witness :
    (40, ("Saturation indices").toList)
      ∈ ExecutePHREEQCTool.build_toc tocFS1 ["ws", "result.out"] ∧
    (1, ("Saturation indices").toList)
      ∈ ExecutePHREEQCTool.build_toc tocFS2 ["ws", "result.out"] := by
  constructor
  · exact (build_toc_sections tocFS1 ["ws", "result.out"] tocText1
      (List.replicate 38 ['\n']) (("---------------\n").toList)
      (("Saturation indices").toList) [] [] [] [] [] rfl).1
      rfl rfl (by decide) rfl rfl
  · exact (build_toc_sections tocFS2 ["ws", "result.out"] tocText2
      [] [] [] [] [] (("----Saturation indices----").toList)
      (("Saturation indices").toList) [] rfl).2.1 rfl rfl

end Geos
